import Mathlib

/-!
# Todoist Autolabel Service — verification of the sync/classification core

Shallow embedding of the orchestration and storage core of the
todoist-autolabel-service repository:

* `src/database.ts` — `DatabaseManager`: the `tasks` table, the capped
  `error_logs` table and the `sync_state` singleton, embedded as pure
  transformations of a `DBState` record.  SQLite's `datetime('now')`
  timestamps are modelled by a strictly increasing logical clock
  (`DBState.now`), and `AUTOINCREMENT` ids by `DBState.nextErrorId`.
  `getTask`, which in the source returns `Result<TaskRecord, 'not_found'>`,
  is embedded as `Option TaskRecord` (`ok r ↦ some r`,
  `err 'not_found' ↦ none`).
* `src/sync.ts` — `SyncManager`: `processTask`, the per-tick eligibility
  filter, and `sync` with its busy-flag guard.  The external collaborators
  (the classifier and the Todoist API) are modelled as outcome oracles
  passed in explicitly: a classifier call either returns a list of labels
  or throws, and a label-update call either succeeds or throws.
-/

namespace Autolabel

/-- Task lifecycle states, from `TaskStatus` in `src/types.ts`. -/
inductive TaskStatus where
  | pending
  | classified
  | failed
  | skipped
deriving Repr, DecidableEq

/-- A row of the `tasks` table (`TaskRecord` in `src/types.ts`).
`labels` holds the JSON-decoded label list (`TEXT` column, nullable). -/
structure TaskRecord where
  taskId : String
  content : String
  status : TaskStatus
  labels : Option (List String)
  attempts : Nat
  lastAttemptAt : Option Nat
  classifiedAt : Option Nat
  createdAt : Nat
  updatedAt : Nat
deriving Repr, DecidableEq

/-- A row of the `error_logs` table (`ErrorLogRecord` in `src/types.ts`). -/
structure ErrorLogRecord where
  id : Nat
  taskId : Option String
  errorType : String
  errorMessage : String
  stackTrace : Option String
  createdAt : Nat
deriving Repr, DecidableEq

/-- The `sync_state` keyed singleton (`SyncState` in `src/types.ts`). -/
structure SyncState where
  syncToken : Option String
  lastSyncAt : Option Nat
  inboxProjectId : Option String
deriving Repr, DecidableEq

/-- The state owned by `DatabaseManager` in `src/database.ts`: the three
tables, the autoincrement counter for `error_logs.id`, the configured
`maxErrorLogs` cap, and the logical clock standing in for
`datetime('now')`. -/
structure DBState where
  tasks : List TaskRecord
  errorLogs : List ErrorLogRecord
  nextErrorId : Nat
  syncState : SyncState
  maxErrorLogs : Nat
  now : Nat
deriving Repr, DecidableEq

/-- A task as returned by the Todoist provider (`TodoistTask` in
`src/types.ts`). -/
structure TodoistTask where
  id : String
  content : String
  description : String
  projectId : Option String
  labels : List String
  priority : Nat
  createdAt : String
  isCompleted : Bool
deriving Repr, DecidableEq

namespace DB

/-- Embeds `DatabaseManager.getTask`: `SELECT * FROM tasks WHERE task_id = ?`.
The source's `Result<TaskRecord, 'not_found'>` is embedded as an
`Option`. -/
def getTask (st : DBState) (taskId : String) : Option TaskRecord :=
  st.tasks.find? (fun r => r.taskId == taskId)

/-- Embeds `DatabaseManager.upsertTask`:
`INSERT ... VALUES (?, ?, 'pending', 0, now, now) ON CONFLICT(task_id)
DO UPDATE SET content = excluded.content, updated_at = now`. -/
def upsertTask (taskId content : String) (st : DBState) : DBState :=
  match st.tasks.find? (fun r => r.taskId == taskId) with
  | some _ =>
    { st with
        tasks := st.tasks.map (fun r =>
          if r.taskId == taskId then
            { r with content := content, updatedAt := st.now }
          else r)
        now := st.now + 1 }
  | none =>
    { st with
        tasks := st.tasks ++ [{
          taskId := taskId
          content := content
          status := .pending
          labels := none
          attempts := 0
          lastAttemptAt := none
          classifiedAt := none
          createdAt := st.now
          updatedAt := st.now }]
        now := st.now + 1 }

/-- Embeds `DatabaseManager.markTaskAttempted`: `UPDATE tasks SET attempts =
attempts + 1, last_attempt_at = now, updated_at = now WHERE task_id = ?`. -/
def markTaskAttempted (taskId : String) (st : DBState) : DBState :=
  { st with
      tasks := st.tasks.map (fun r =>
        if r.taskId == taskId then
          { r with
              attempts := r.attempts + 1
              lastAttemptAt := some st.now
              updatedAt := st.now }
        else r)
      now := st.now + 1 }

/-- Embeds `DatabaseManager.markTaskClassified`: `UPDATE tasks SET status =
'classified', labels = ?, classified_at = now, updated_at = now
WHERE task_id = ?`. -/
def markTaskClassified (taskId : String) (labels : List String)
    (st : DBState) : DBState :=
  { st with
      tasks := st.tasks.map (fun r =>
        if r.taskId == taskId then
          { r with
              status := .classified
              labels := some labels
              classifiedAt := some st.now
              updatedAt := st.now }
        else r)
      now := st.now + 1 }

/-- Embeds `DatabaseManager.markTaskFailed`: `UPDATE tasks SET status = 'failed',
updated_at = now WHERE task_id = ?`. -/
def markTaskFailed (taskId : String) (st : DBState) : DBState :=
  { st with
      tasks := st.tasks.map (fun r =>
        if r.taskId == taskId then
          { r with status := .failed, updatedAt := st.now }
        else r)
      now := st.now + 1 }

/-- Embeds `DatabaseManager.markTaskSkipped`: `UPDATE tasks SET status = 'skipped',
updated_at = now WHERE task_id = ?`. -/
def markTaskSkipped (taskId : String) (st : DBState) : DBState :=
  { st with
      tasks := st.tasks.map (fun r =>
        if r.taskId == taskId then
          { r with status := .skipped, updatedAt := st.now }
        else r)
      now := st.now + 1 }

/-- Insertion step of `ORDER BY created_at ASC` (insertion sort on the
`created_at` column). -/
def insertByCreatedAt (e : ErrorLogRecord) :
    List ErrorLogRecord → List ErrorLogRecord
  | [] => [e]
  | x :: xs =>
    if e.createdAt ≤ x.createdAt then e :: x :: xs
    else x :: insertByCreatedAt e xs

/-- Embeds `ORDER BY created_at ASC`: the error rows sorted by creation time. -/
def sortByCreatedAt : List ErrorLogRecord → List ErrorLogRecord
  | [] => []
  | x :: xs => insertByCreatedAt x (sortByCreatedAt xs)

/-- Embeds `DatabaseManager.purgeOldErrorLogs`: count the rows; when the count
exceeds `maxErrorLogs`, `DELETE FROM error_logs WHERE id IN (SELECT id
FROM error_logs ORDER BY created_at ASC LIMIT count - maxErrorLogs)`. -/
def purgeOldErrorLogs (st : DBState) : DBState :=
  let count := st.errorLogs.length
  if count > st.maxErrorLogs then
    let deleteCount := count - st.maxErrorLogs
    let victims := ((sortByCreatedAt st.errorLogs).take deleteCount).map
      (fun e => e.id)
    { st with
        errorLogs := st.errorLogs.filter (fun e => !victims.contains e.id) }
  else st

/-- Embeds `DatabaseManager.logError`: insert a row (autoincremented id, current
timestamp), then run the FIFO prune. -/
def logError (errorType errorMessage : String) (taskId : Option String)
    (stackTrace : Option String) (st : DBState) : DBState :=
  purgeOldErrorLogs
    { st with
        errorLogs := st.errorLogs ++ [{
          id := st.nextErrorId
          taskId := taskId
          errorType := errorType
          errorMessage := errorMessage
          stackTrace := stackTrace
          createdAt := st.now }]
        nextErrorId := st.nextErrorId + 1
        now := st.now + 1 }

/-- Embeds `DatabaseManager.saveLastSyncAt`: upsert the `last_sync_at` key of
`sync_state` with the current timestamp. -/
def saveLastSyncAt (st : DBState) : DBState :=
  { st with
      syncState := { st.syncState with lastSyncAt := some st.now }
      now := st.now + 1 }

end DB

/-! ## The orchestrator (`SyncManager` in `src/sync.ts`) -/

/-- The constant `MAX_ATTEMPTS` in `src/sync.ts`. -/
def MAX_ATTEMPTS : Nat := 3

/-- Outcome of one `classifier.classifyTask` call: either a result with a
list of labels, or a thrown error (message and optional stack). -/
inductive ClassifyOutcome where
  | ok (labels : List String)
  | throw (msg : String) (stack : Option String)
deriving Repr, DecidableEq

/-- Outcome of one `api.updateTaskLabels` call. -/
inductive UpdateOutcome where
  | ok
  | throw (msg : String) (stack : Option String)
deriving Repr, DecidableEq

/-- Outcome of one `api.getInboxTasks` call: the task list, or a thrown
error. -/
inductive ListOutcome where
  | ok (tasks : List TodoistTask)
  | throw (msg : String) (stack : Option String)
deriving Repr, DecidableEq

/-- Return value of `SyncManager.processTask`. -/
structure ProcessResult where
  success : Bool
  skipped : Bool
deriving Repr, DecidableEq

/-- The statistics object built by `SyncManager.sync`. -/
structure SyncStats where
  processed : Nat
  classified : Nat
  failed : Nat
  skipped : Nat
deriving Repr, DecidableEq

/-- The zero-initialised `stats` object of `SyncManager.sync`. -/
def zeroStats : SyncStats := ⟨0, 0, 0, 0⟩

/-- The mutable state of a `SyncManager` instance: its `isRunning` busy
flag. -/
structure SyncManagerState where
  isRunning : Bool
deriving Repr, DecidableEq

/-- Embeds `SyncManager.processTask`, with the classifier and label-update calls
resolved by the given outcomes.  Mirrors the source step by step:
upsert, read `attempts` (`taskRecord?.attempts || 0`), `markTaskAttempted`,
then the classify / empty-result / update / catch branches.  The function
itself never throws: every error path is caught and returns
`{ success := false, skipped := false }`. -/
def processTask (task : TodoistTask) (cls : ClassifyOutcome)
    (upd : UpdateOutcome) (db : DBState) : ProcessResult × DBState :=
  let db1 := DB.upsertTask task.id task.content db
  let attempts := ((DB.getTask db1 task.id).map (fun r => r.attempts)).getD 0
  let db2 := DB.markTaskAttempted task.id db1
  match cls with
  | .throw msg stack =>
    -- catch path: log CLASSIFICATION_ERROR, fail when attempts exhausted
    let db3 := DB.logError "CLASSIFICATION_ERROR" msg (some task.id) stack db2
    let db4 := if attempts + 1 ≥ MAX_ATTEMPTS then DB.markTaskFailed task.id db3
               else db3
    (⟨false, false⟩, db4)
  | .ok labels =>
    if labels.length = 0 then
      if attempts + 1 ≥ MAX_ATTEMPTS then
        let db3 := DB.markTaskFailed task.id db2
        let db4 := DB.logError "CLASSIFICATION_EMPTY"
          "No labels could be assigned after max attempts" (some task.id)
          none db3
        (⟨false, false⟩, db4)
      else
        (⟨false, false⟩, db2)
    else
      match upd with
      | .ok =>
        let db3 := DB.markTaskClassified task.id labels db2
        (⟨true, false⟩, db3)
      | .throw msg stack =>
        -- updateTaskLabels threw: same catch path as a classifier error
        let db3 := DB.logError "CLASSIFICATION_ERROR" msg (some task.id)
          stack db2
        let db4 := if attempts + 1 ≥ MAX_ATTEMPTS then
                     DB.markTaskFailed task.id db3
                   else db3
        (⟨false, false⟩, db4)

/-- One evaluation of the eligibility predicate passed to `tasks.filter`
in `SyncManager.sync`, together with its side effect (recording a
never-seen already-labeled task as skipped).  Returns the predicate's
boolean and the database state after the evaluation. -/
def eligibilityStep (db : DBState) (task : TodoistTask) : Bool × DBState :=
  if task.isCompleted then (false, db)
  else if task.labels.length > 0 then
    match DB.getTask db task.id with
    | some _ => (false, db)
    | none =>
      (false, DB.markTaskSkipped task.id (DB.upsertTask task.id task.content db))
  else
    match DB.getTask db task.id with
    | some taskRecord =>
      if taskRecord.status = .classified ∨ taskRecord.status = .skipped then
        (false, db)
      else if taskRecord.status = .failed ∨
              taskRecord.attempts ≥ MAX_ATTEMPTS then
        (false, db)
      else (true, db)
    | none => (true, db)

/-- Embeds `tasks.filter(...)` in `SyncManager.sync`: JavaScript's `filter`
evaluates the predicate left to right, so the side effects thread through
in list order.  Returns the kept tasks and the final database state. -/
def filterTasks (db : DBState) : List TodoistTask →
    List TodoistTask × DBState
  | [] => ([], db)
  | t :: ts =>
    let step := eligibilityStep db t
    let rest := filterTasks step.2 ts
    (if step.1 then t :: rest.1 else rest.1, rest.2)

/-- The `for (const task of tasksToProcess)` loop of `SyncManager.sync`:
count the task as processed, run `processTask`, and bump the
classified / skipped / failed counter according to its result.
(`processTask` never throws in the model, so the loop's catch
branch is unreachable.) -/
def processLoop (om : TodoistTask → ClassifyOutcome × UpdateOutcome) :
    List TodoistTask → DBState → SyncStats → SyncStats × DBState
  | [], db, stats => (stats, db)
  | t :: ts, db, stats =>
    let stats1 := { stats with processed := stats.processed + 1 }
    let step := processTask t (om t).1 (om t).2 db
    let stats2 :=
      if step.1.success then
        { stats1 with classified := stats1.classified + 1 }
      else if step.1.skipped then
        { stats1 with skipped := stats1.skipped + 1 }
      else
        { stats1 with failed := stats1.failed + 1 }
    processLoop om ts step.2 stats2

/-- Embeds `SyncManager.sync`, one invocation.  `mgr` is the manager's state when
the call starts (a concurrently running earlier tick shows up as
`isRunning = true`), `lo` resolves the single `api.getInboxTasks()` call,
and `om` resolves the classifier/update calls per task.  Returns the
result (`Except.error` models a propagated exception), the manager state
after the `finally` block, the database state, and the number of
`getInboxTasks` calls made by this invocation. -/
def sync (mgr : SyncManagerState) (lo : ListOutcome)
    (om : TodoistTask → ClassifyOutcome × UpdateOutcome) (db : DBState) :
    Except String SyncStats × SyncManagerState × DBState × Nat :=
  if mgr.isRunning then
    (Except.ok zeroStats, mgr, db, 0)
  else
    match lo with
    | .throw msg stack =>
      -- getInboxTasks threw: log SYNC_ERROR (no task id) and re-throw;
      -- the finally block clears the busy flag
      let db1 := DB.logError "SYNC_ERROR" msg none stack db
      (Except.error msg, ⟨false⟩, db1, 1)
    | .ok tasks =>
      let filtered := filterTasks db tasks
      let looped := processLoop om filtered.1 filtered.2 zeroStats
      let db3 := DB.saveLastSyncAt looped.2
      (Except.ok looped.1, ⟨false⟩, db3, 1)

/-- Repeated processing of one task across ticks: `processRepeatedly t f k`
applies `processTask` to `t` a total of `k` times, the `i`-th call (from 0)
resolved by the outcomes `f i`. -/
def processRepeatedly (t : TodoistTask)
    (f : Nat → ClassifyOutcome × UpdateOutcome) : Nat → DBState → DBState
  | 0, db => db
  | k + 1, db =>
    (processTask t (f k).1 (f k).2 (processRepeatedly t f k db)).2

/-- An attempt that fails in the sense of claim C1: the classifier throws,
or it returns a non-empty label list and the label write-back throws. -/
def FailingOutcome : ClassifyOutcome × UpdateOutcome → Prop
  | (.throw _ _, _) => True
  | (.ok labels, u) => labels ≠ [] ∧ ∃ m s, u = .throw m s

/-! ## Concrete fixtures for the scenario claims and for witnesses -/

/-- A fresh store (no tasks, no error rows) configured with the given
`maxErrorLogs` cap. -/
def emptyDB (maxLogs : Nat) : DBState :=
  ⟨[], [], 1, ⟨none, none, none⟩, maxLogs, 0⟩

/-- Scenario task `t1`: empty labels, not completed. -/
def taskT1 : TodoistTask := ⟨"t1", "Write report", "", none, [], 1, "", false⟩

/-- Scenario task `t2`: empty labels, not completed. -/
def taskT2 : TodoistTask := ⟨"t2", "Mystery task", "", none, [], 1, "", false⟩

/-- Scenario task `t3`: observed already carrying the label `urgent`. -/
def taskT3 : TodoistTask :=
  ⟨"t3", "Pay rent", "", none, ["urgent"], 1, "", false⟩

/-- A task whose stored record is already classified. -/
def taskT9 : TodoistTask := ⟨"t9", "Old task", "", none, [], 1, "", false⟩

/-- The stored record for `taskT9`: already classified. -/
def recT9 : TaskRecord :=
  ⟨"t9", "Old task", .classified, some ["work"], 1, none, some 5, 0, 5⟩

/-- A store already holding the classified record `recT9`. -/
def dbClassified : DBState := ⟨[recT9], [], 1, ⟨none, none, none⟩, 100, 6⟩

/-- Outcome sequence for scenario `t1`: classifier throws on attempts 1
and 2, returns `["work"]` on attempt 3 (label update succeeds). -/
def throwThrowWork : Nat → ClassifyOutcome × UpdateOutcome
  | 0 => (.throw "classifier unavailable" none, .ok)
  | 1 => (.throw "classifier unavailable" none, .ok)
  | _ => (.ok ["work"], .ok)

/-- Outcome sequence for scenario `t2`: the classifier returns an empty
label list on every attempt. -/
def alwaysEmpty : Nat → ClassifyOutcome × UpdateOutcome :=
  fun _ => (.ok [], .ok)

/-- Outcome sequence where the classifier throws on every attempt. -/
def alwaysThrow : Nat → ClassifyOutcome × UpdateOutcome :=
  fun _ => (.throw "classifier unavailable" none, .ok)

/-- A manager mid-tick (busy flag set). -/
def busyMgr : SyncManagerState := ⟨true⟩

/-- An idle manager (busy flag clear). -/
def idleMgr : SyncManagerState := ⟨false⟩

/-- A per-task outcome map: classifier returns no labels. -/
def noOutcome : TodoistTask → ClassifyOutcome × UpdateOutcome :=
  fun _ => (.ok [], .ok)

/-- Well-formedness of the `error_logs` table as maintained by the model:
rows in strictly increasing creation order, all created before the
current clock, ids strictly increasing and all below the autoincrement
counter.  Every reachable store satisfies this. -/
def ErrorLogsWF (st : DBState) : Prop :=
  st.errorLogs.Pairwise (fun a b => a.createdAt < b.createdAt) ∧
  (∀ e ∈ st.errorLogs, e.createdAt < st.now) ∧
  st.errorLogs.Pairwise (fun a b => a.id < b.id) ∧
  (∀ e ∈ st.errorLogs, e.id < st.nextErrorId)

/-- A store configured with `maxErrorLogs = 2` already holding two error
rows, used to witness the FIFO-cap theorem. -/
def dbTwoLogs : DBState :=
  ⟨[], [⟨1, none, "SYNC_ERROR", "m1", none, 0⟩,
        ⟨2, none, "SYNC_ERROR", "m2", none, 1⟩],
   3, ⟨none, none, none⟩, 2, 2⟩

/-! ## Basic lemmas about the store operations -/

open DB

lemma find?_map_update (l : List TaskRecord) (id : String)
    (f : TaskRecord → TaskRecord) (hf : ∀ r, (f r).taskId = r.taskId) :
    (l.map (fun r => if r.taskId == id then f r else r)).find?
        (fun r => r.taskId == id)
      = (l.find? (fun r => r.taskId == id)).map f := by
  induction l with
  | nil => simp
  | cons r rs ih =>
    by_cases h : r.taskId = id
    · simp [h, hf]
    · simp only [List.map_cons]
      rw [List.find?_cons_of_neg, List.find?_cons_of_neg, ih]
      · simp [h]
      · simp [h, hf]

lemma getTask_markTaskAttempted (db : DBState) (id : String) :
    getTask (markTaskAttempted id db) id
      = (getTask db id).map (fun r =>
          { r with attempts := r.attempts + 1,
                   lastAttemptAt := some db.now, updatedAt := db.now }) := by
  simp only [getTask, markTaskAttempted]
  exact find?_map_update _ _ _ (fun r => rfl)

lemma getTask_markTaskFailed (db : DBState) (id : String) :
    getTask (markTaskFailed id db) id
      = (getTask db id).map (fun r =>
          { r with status := .failed, updatedAt := db.now }) := by
  simp only [getTask, markTaskFailed]
  exact find?_map_update _ _ _ (fun r => rfl)

lemma getTask_markTaskSkipped (db : DBState) (id : String) :
    getTask (markTaskSkipped id db) id
      = (getTask db id).map (fun r =>
          { r with status := .skipped, updatedAt := db.now }) := by
  simp only [getTask, markTaskSkipped]
  exact find?_map_update _ _ _ (fun r => rfl)

lemma getTask_markTaskClassified (db : DBState) (id : String)
    (labels : List String) :
    getTask (markTaskClassified id labels db) id
      = (getTask db id).map (fun r =>
          { r with status := .classified, labels := some labels,
                   classifiedAt := some db.now, updatedAt := db.now }) := by
  simp only [getTask, markTaskClassified]
  exact find?_map_update _ _ _ (fun r => rfl)

lemma logError_tasks (ty msg : String) (tid stk : Option String)
    (db : DBState) : (logError ty msg tid stk db).tasks = db.tasks := by
  simp only [logError, purgeOldErrorLogs]
  split <;> rfl

lemma getTask_logError (ty msg : String) (tid stk : Option String)
    (db : DBState) (id : String) :
    getTask (logError ty msg tid stk db) id = getTask db id := by
  simp only [getTask, logError_tasks]

lemma getTask_upsert_some (db : DBState) (id c : String) (r : TaskRecord)
    (h : getTask db id = some r) :
    getTask (upsertTask id c db) id
      = some { r with content := c, updatedAt := db.now } := by
  simp only [getTask, upsertTask] at *
  rw [h]
  simp only
  rw [find?_map_update db.tasks id
    (fun r => { r with content := c, updatedAt := db.now }) (fun r => rfl), h]
  rfl

lemma getTask_upsert_none (db : DBState) (id c : String)
    (h : getTask db id = none) :
    getTask (upsertTask id c db) id
      = some ⟨id, c, .pending, none, 0, none, none, db.now, db.now⟩ := by
  simp only [getTask, upsertTask] at *
  rw [h]
  simp [List.find?_append, h]

/-! ## Per-task retry bound (claim C1) -/

lemma processTask_failing_step (t : TodoistTask)
    (o : ClassifyOutcome × UpdateOutcome) (ho : FailingOutcome o)
    (db : DBState) (r : TaskRecord) (h : getTask db t.id = some r) :
    ∃ r', getTask (processTask t o.1 o.2 db).2 t.id = some r' ∧
      r'.attempts = r.attempts + 1 ∧
      r'.status = (if r.attempts + 1 ≥ MAX_ATTEMPTS then .failed
                   else r.status) := by
  obtain ⟨o1, o2⟩ := o
  have h1 := getTask_upsert_some db t.id t.content r h
  have h2 := getTask_markTaskAttempted (upsertTask t.id t.content db) t.id
  rw [h1, Option.map_some'] at h2
  cases o1 with
  | throw msg stack =>
    by_cases hm : r.attempts + 1 ≥ MAX_ATTEMPTS
    · simp only [processTask, h1, Option.map_some', Option.getD_some,
        if_pos hm, getTask_markTaskFailed, getTask_logError, h2]
      exact ⟨_, rfl, rfl, rfl⟩
    · simp only [processTask, h1, Option.map_some', Option.getD_some,
        if_neg hm, getTask_logError, h2]
      exact ⟨_, rfl, rfl, rfl⟩
  | ok labels =>
    obtain ⟨hne, m, s, hu⟩ := ho
    subst hu
    have hlen : ¬ labels.length = 0 := by simpa using hne
    by_cases hm : r.attempts + 1 ≥ MAX_ATTEMPTS
    · simp only [processTask, h1, Option.map_some', Option.getD_some,
        if_neg hlen, if_pos hm, getTask_markTaskFailed, getTask_logError, h2]
      exact ⟨_, rfl, rfl, rfl⟩
    · simp only [processTask, h1, Option.map_some', Option.getD_some,
        if_neg hlen, if_neg hm, getTask_logError, h2]
      exact ⟨_, rfl, rfl, rfl⟩

lemma processTask_failing_fresh (t : TodoistTask)
    (o : ClassifyOutcome × UpdateOutcome) (ho : FailingOutcome o)
    (db : DBState) (h : getTask db t.id = none) :
    ∃ r', getTask (processTask t o.1 o.2 db).2 t.id = some r' ∧
      r'.attempts = 1 ∧ r'.status = .pending := by
  obtain ⟨o1, o2⟩ := o
  have h1 := getTask_upsert_none db t.id t.content h
  have h2 := getTask_markTaskAttempted (upsertTask t.id t.content db) t.id
  rw [h1, Option.map_some'] at h2
  have hm : ¬ ((0 : Nat) + 1 ≥ MAX_ATTEMPTS) := by decide
  cases o1 with
  | throw msg stack =>
    simp only [processTask, h1, Option.map_some', Option.getD_some,
      if_neg hm, getTask_logError, h2]
    exact ⟨_, rfl, rfl, rfl⟩
  | ok labels =>
    obtain ⟨hne, m, s, hu⟩ := ho
    subst hu
    have hlen : ¬ labels.length = 0 := by simpa using hne
    simp only [processTask, h1, Option.map_some', Option.getD_some,
      if_neg hlen, if_neg hm, getTask_logError, h2]
    exact ⟨_, rfl, rfl, rfl⟩



/-- C1: a task absent from the store that is repeatedly processed through
`SyncManager.processTask` with every attempt failing (classifier throw or
label write-back throw) has, after `k ≥ 1` attempts, `attempts = k` and
status `pending` while `k < 3` and `failed` from `k = 3` on — so the
transition to `failed` happens on exactly the attempt where `attempts`
reaches 3. -/
theorem retry_bound_processTask (t : TodoistTask)
    (f : Nat → ClassifyOutcome × UpdateOutcome)
    (hf : ∀ i, FailingOutcome (f i)) (db : DBState)
    (h0 : getTask db t.id = none) (k : Nat) (hk : 1 ≤ k) :
    ∃ r, getTask (processRepeatedly t f k db) t.id = some r ∧
      r.attempts = k ∧
      r.status = (if k < MAX_ATTEMPTS then .pending else .failed) := by
  induction k with
  | zero => omega
  | succ n ih =>
    rcases Nat.eq_zero_or_pos n with hn | hn
    · subst hn
      obtain ⟨r, hr, ha, hs⟩ :=
        processTask_failing_fresh t (f 0) (hf 0) db h0
      refine ⟨r, ?_, ha, ?_⟩
      · simpa [processRepeatedly] using hr
      · rw [hs, if_pos (by decide : (1 : Nat) < MAX_ATTEMPTS)]
    · obtain ⟨r, hr, ha, hs⟩ := ih hn
      obtain ⟨r', hr', ha', hs'⟩ :=
        processTask_failing_step t (f n) (hf n)
          (processRepeatedly t f n db) r hr
      refine ⟨r', ?_, ?_, ?_⟩
      · simpa [processRepeatedly] using hr'
      · rw [ha', ha]
      · rw [hs', ha, hs]
        by_cases h3 : n + 1 ≥ MAX_ATTEMPTS
        · rw [if_pos h3, if_neg (by omega)]
        · have hlt : n + 1 < MAX_ATTEMPTS := by omega
          have hlt' : n < MAX_ATTEMPTS := by omega
          rw [if_neg h3, if_pos hlt, if_pos hlt']

/-! ## Eligibility filter and upsert (claims C2, C4, C6) -/

/-- C2: a task whose stored record has a terminal status (`classified`,
`failed` or `skipped`) is excluded by the eligibility filter of
`SyncManager.sync`: the filter predicate evaluates to `false` for it. -/
theorem terminal_status_not_eligible (db : DBState) (t : TodoistTask)
    (r : TaskRecord) (h : getTask db t.id = some r)
    (hs : r.status = .classified ∨ r.status = .failed ∨
          r.status = .skipped) :
    (eligibilityStep db t).1 = false := by
  by_cases hc : t.isCompleted
  · simp [eligibilityStep, hc]
  · by_cases hl : t.labels.length > 0
    · simp only [eligibilityStep, hc, hl, if_false, if_true, Bool.false_eq_true,
        ite_false, ite_true]
      simp [h]
    · rcases hs with h1 | h1 | h1 <;> simp [eligibilityStep, hc, hl, h, h1]

/-- C4: a non-completed provider task that already carries labels is never
kept by the tick's eligibility filter (so the classifier is never invoked
for it and no attempt is recorded), and when it is not yet tracked the
filter's side effect records it with status `skipped` and `attempts = 0`. -/
theorem labeled_task_never_classified (t : TodoistTask)
    (hnc : t.isCompleted = false) (hl : t.labels ≠ []) :
    (∀ db tasks, t ∉ (filterTasks db tasks).1) ∧
    (∀ db, getTask db t.id = none →
      ∃ r, getTask (eligibilityStep db t).2 t.id = some r ∧
        r.status = .skipped ∧ r.attempts = 0) := by
  have hlen : t.labels.length > 0 := List.length_pos.mpr hl
  have hstep : ∀ db, (eligibilityStep db t).1 = false := by
    intro db
    cases hgt : getTask db t.id <;>
      simp [eligibilityStep, hnc, hlen, hgt]
  constructor
  · intro db tasks
    induction tasks generalizing db with
    | nil => simp [filterTasks]
    | cons a as ih =>
      simp only [filterTasks]
      by_cases hkeep : (eligibilityStep db a).1
      · rw [if_pos hkeep]
        intro hmem
        rcases List.mem_cons.mp hmem with hmem | hmem
        · subst hmem
          rw [hstep db] at hkeep
          exact absurd hkeep (by simp)
        · exact ih _ hmem
      · rw [if_neg hkeep]
        exact ih _
  · intro db h
    have h1 := getTask_upsert_none db t.id t.content h
    have h2 := getTask_markTaskSkipped (upsertTask t.id t.content db) t.id
    rw [h1, Option.map_some'] at h2
    have h3 : getTask (eligibilityStep db t).2 t.id
        = some ⟨t.id, t.content, .skipped, none, 0, none, none, db.now,
            (upsertTask t.id t.content db).now⟩ := by
      simp only [eligibilityStep, hnc, hlen, h]
      simpa using h2
    exact ⟨_, h3, rfl, rfl⟩

/-- C6: `upsertTask` on an already-present id changes only `content` and
`updatedAt`, leaving `status`, `attempts`, `labels`, `classifiedAt`,
`lastAttemptAt` and `createdAt` as they were; on an absent id it inserts a
record with status `pending` and `attempts = 0`. -/
theorem upsert_idempotent (db : DBState) (id c : String) :
    (∀ r, getTask db id = some r →
      getTask (upsertTask id c db) id
        = some { r with content := c, updatedAt := db.now }) ∧
    (getTask db id = none →
      getTask (upsertTask id c db) id
        = some ⟨id, c, .pending, none, 0, none, none, db.now, db.now⟩) :=
  ⟨fun r h => getTask_upsert_some db id c r h,
   fun h => getTask_upsert_none db id c h⟩

/-! ## Tick-level guard and statistics (claims C8, C9, C10) -/

lemma processTask_skipped_false (t : TodoistTask) (cls : ClassifyOutcome)
    (upd : UpdateOutcome) (db : DBState) :
    (processTask t cls upd db).1.skipped = false := by
  cases cls with
  | throw m s => rfl
  | ok labels =>
    cases upd <;> · simp only [processTask]
                    split <;> (try split) <;> rfl

lemma processLoop_skipped (om : TodoistTask → ClassifyOutcome × UpdateOutcome)
    (ts : List TodoistTask) (db : DBState) (stats : SyncStats) :
    (processLoop om ts db stats).1.skipped = stats.skipped := by
  induction ts generalizing db stats with
  | nil => rfl
  | cons t rest ih =>
    simp only [processLoop]
    rw [ih]
    by_cases hs : (processTask t (om t).1 (om t).2 db).1.success
    · simp [hs]
    · simp [hs, processTask_skipped_false]

/-- C10: `processTask` returns `skipped := false` on every path, and every
`SyncManager.sync` invocation that returns statistics returns them with
`skipped = 0`. -/
theorem sync_stats_skipped_zero :
    (∀ (t : TodoistTask) (cls : ClassifyOutcome) (upd : UpdateOutcome)
        (db : DBState), (processTask t cls upd db).1.skipped = false) ∧
    (∀ (mgr : SyncManagerState) (lo : ListOutcome)
        (om : TodoistTask → ClassifyOutcome × UpdateOutcome) (db : DBState)
        (stats : SyncStats),
      (sync mgr lo om db).1 = Except.ok stats → stats.skipped = 0) := by
  refine ⟨processTask_skipped_false, ?_⟩
  intro mgr lo om db stats h
  by_cases hb : mgr.isRunning
  · simp only [sync, hb, if_true, Except.ok.injEq] at h
    cases h
    rfl
  · cases lo with
    | throw m s => simp [sync, hb] at h
    | ok tasks =>
      simp only [sync, hb, if_false, Except.ok.injEq, Bool.false_eq_true] at h
      cases h
      rw [processLoop_skipped]
      rfl

/-- C8: a `sync` invocation that starts while the busy flag is set returns
all-zero statistics, makes no `getInboxTasks` call and leaves the store
untouched; an invocation that does enter a tick makes exactly one
`getInboxTasks` call — so two back-to-back invocations make exactly one. -/
theorem busy_tick_zero_effect (mgr : SyncManagerState) (lo : ListOutcome)
    (om : TodoistTask → ClassifyOutcome × UpdateOutcome) (db : DBState)
    (h : mgr.isRunning = true) :
    sync mgr lo om db = (Except.ok zeroStats, mgr, db, 0) ∧
    (∀ (mgr2 : SyncManagerState) (lo2 : ListOutcome)
        (om2 : TodoistTask → ClassifyOutcome × UpdateOutcome)
        (db2 : DBState), mgr2.isRunning = false →
      (sync mgr2 lo2 om2 db2).2.2.2 = 1) := by
  constructor
  · simp [sync, h]
  · intro mgr2 lo2 om2 db2 h2
    cases lo2 <;> simp [sync, h2]

/-- C9: every `sync` invocation that enters a tick (busy flag clear on
entry) leaves the busy flag clear again when it finishes, whether it
returns statistics or propagates a `getInboxTasks` exception. -/
theorem busy_flag_cleared (mgr : SyncManagerState) (lo : ListOutcome)
    (om : TodoistTask → ClassifyOutcome × UpdateOutcome) (db : DBState)
    (h : mgr.isRunning = false) :
    (sync mgr lo om db).2.1.isRunning = false := by
  cases lo <;> simp [sync, h]

/-! ## Concrete scenarios and witnesses (claims C3, C7; witnesses) -/

/-- C3: scenario `t1` — classifier throws on attempts 1 and 2 and returns
`["work"]` on attempt 3 with the label update succeeding: after the third
pass the stored record is `classified` with labels `["work"]` and
`attempts = 3`. -/
theorem scenario_retry_then_success :
    ((getTask (processRepeatedly taskT1 throwThrowWork 3 (emptyDB 100))
        "t1").map (fun r => (r.status, r.labels, r.attempts)))
      = some (.classified, some ["work"], 3) := by decide

/-- C7: scenario `t2` — classifier returns an empty label list on all 3
attempts: the final record is `failed` with `attempts = 3`, and the error
log holds exactly one row, a `CLASSIFICATION_EMPTY` entry for `t2` (the
empty results of attempts 1 and 2 logged nothing). -/
theorem scenario_empty_results_failed :
    ((getTask (processRepeatedly taskT2 alwaysEmpty 3 (emptyDB 100))
        "t2").map (fun r => (r.status, r.attempts)))
      = some (.failed, 3) ∧
    ((processRepeatedly taskT2 alwaysEmpty 3 (emptyDB 100)).errorLogs.map
        (fun e => (e.errorType, e.taskId)))
      = [("CLASSIFICATION_EMPTY", some "t2")] := by decide

/-- Witness for C1 at a concrete input. -/
theorem retry_bound_processTask_witness :
    (∀ i, FailingOutcome (alwaysThrow i)) ∧
    getTask (emptyDB 100) taskT1.id = none ∧
    (1 : Nat) ≤ 3 ∧
    ∃ r, getTask (processRepeatedly taskT1 alwaysThrow 3 (emptyDB 100))
        taskT1.id = some r ∧
      r.attempts = 3 ∧
      r.status = (if 3 < MAX_ATTEMPTS then .pending else .failed) :=
  ⟨fun _ => trivial, rfl, by decide,
   retry_bound_processTask taskT1 alwaysThrow (fun _ => trivial)
     (emptyDB 100) rfl 3 (by decide)⟩

/-- Witness for C2 at a concrete input. -/
theorem terminal_status_not_eligible_witness :
    getTask dbClassified "t9" = some recT9 ∧
    (recT9.status = .classified ∨ recT9.status = .failed ∨
      recT9.status = .skipped) ∧
    (eligibilityStep dbClassified taskT9).1 = false :=
  ⟨rfl, Or.inl rfl,
   terminal_status_not_eligible dbClassified taskT9 recT9 rfl (Or.inl rfl)⟩

/-- Witness for C4 at a concrete input. -/
theorem labeled_task_never_classified_witness :
    taskT3.isCompleted = false ∧ taskT3.labels ≠ [] ∧
    taskT3 ∉ (filterTasks (emptyDB 100) [taskT3]).1 ∧
    ∃ r, getTask (eligibilityStep (emptyDB 100) taskT3).2 taskT3.id
        = some r ∧ r.status = .skipped ∧ r.attempts = 0 :=
  ⟨rfl, by decide,
   (labeled_task_never_classified taskT3 rfl (by decide)).1 (emptyDB 100)
     [taskT3],
   (labeled_task_never_classified taskT3 rfl (by decide)).2 (emptyDB 100)
     rfl⟩

/-- Witness for C6 at a concrete input. -/
theorem upsert_idempotent_witness :
    getTask dbClassified "t9" = some recT9 ∧
    getTask (upsertTask "t9" "updated text" dbClassified) "t9"
      = some { recT9 with
                 content := "updated text"
                 updatedAt := dbClassified.now } :=
  ⟨rfl, (upsert_idempotent dbClassified "t9" "updated text").1 recT9 rfl⟩

/-- Witness for C8 at a concrete input. -/
theorem busy_tick_zero_effect_witness :
    busyMgr.isRunning = true ∧
    sync busyMgr (.ok []) noOutcome (emptyDB 100)
      = (Except.ok zeroStats, busyMgr, emptyDB 100, 0) ∧
    (sync idleMgr (.ok []) noOutcome (emptyDB 100)).2.2.2 = 1 :=
  ⟨rfl,
   (busy_tick_zero_effect busyMgr (.ok []) noOutcome (emptyDB 100) rfl).1,
   (busy_tick_zero_effect busyMgr (.ok []) noOutcome (emptyDB 100) rfl).2
     idleMgr (.ok []) noOutcome (emptyDB 100) rfl⟩

/-- Witness for C9 at a concrete input. -/
theorem busy_flag_cleared_witness :
    idleMgr.isRunning = false ∧
    (sync idleMgr (.throw "network down" none) noOutcome
        (emptyDB 100)).2.1.isRunning = false :=
  ⟨rfl,
   busy_flag_cleared idleMgr (.throw "network down" none) noOutcome
     (emptyDB 100) rfl⟩

/-- Witness for C10 at a concrete input. -/
theorem sync_stats_skipped_zero_witness :
    (sync idleMgr (.ok [taskT1]) noOutcome (emptyDB 100)).1
      = Except.ok ⟨1, 0, 1, 0⟩ ∧
    (⟨1, 0, 1, 0⟩ : SyncStats).skipped = 0 :=
  ⟨rfl,
   sync_stats_skipped_zero.2 idleMgr (.ok [taskT1]) noOutcome (emptyDB 100)
     ⟨1, 0, 1, 0⟩ rfl⟩

/-! ## FIFO error-log cap (claim C5) -/

lemma insertByCreatedAt_of_le (e : ErrorLogRecord) (l : List ErrorLogRecord)
    (h : ∀ y ∈ l, e.createdAt ≤ y.createdAt) :
    insertByCreatedAt e l = e :: l := by
  cases l with
  | nil => rfl
  | cons x xs =>
    simp only [insertByCreatedAt, if_pos (h x (by simp))]

lemma sortByCreatedAt_of_sorted (l : List ErrorLogRecord)
    (h : l.Pairwise (fun a b => a.createdAt ≤ b.createdAt)) :
    sortByCreatedAt l = l := by
  induction l with
  | nil => rfl
  | cons x xs ih =>
    obtain ⟨hx, hxs⟩ := List.pairwise_cons.mp h
    rw [sortByCreatedAt, ih hxs, insertByCreatedAt_of_le x xs hx]

lemma filter_take_ids :
    ∀ (l : List ErrorLogRecord),
      l.Pairwise (fun a b => a.id < b.id) → ∀ d : Nat,
      l.filter (fun e => !((l.take d).map (fun x => x.id)).contains e.id)
        = l.drop d := by
  intro l
  induction l with
  | nil => intro _ d; simp
  | cons x xs ih =>
    intro hl d
    obtain ⟨hx, hxs⟩ := List.pairwise_cons.mp hl
    cases d with
    | zero => simp
    | succ d =>
      rw [List.take_succ_cons, List.map_cons, List.drop_succ_cons,
        List.filter_cons]
      have hcx : ((x.id :: (xs.take d).map (fun x => x.id)).contains x.id)
          = true := by simp
      rw [if_neg (by simp [hcx])]
      have hcong : ∀ e ∈ xs,
          (!((x.id :: (xs.take d).map (fun x => x.id)).contains e.id))
            = (!(((xs.take d).map (fun x => x.id)).contains e.id)) := by
        intro e he
        have hne : e.id ≠ x.id := by
          have := hx e he
          omega
        simp [List.contains_cons, hne]
      rw [List.filter_congr hcong, ih hxs d]

lemma purge_drop (st : DBState)
    (hid : st.errorLogs.Pairwise (fun a b => a.id < b.id))
    (hsorted : sortByCreatedAt st.errorLogs = st.errorLogs) :
    (purgeOldErrorLogs st).errorLogs
      = st.errorLogs.drop (st.errorLogs.length - st.maxErrorLogs) := by
  simp only [purgeOldErrorLogs]
  by_cases h : st.errorLogs.length > st.maxErrorLogs
  · rw [if_pos h]
    show st.errorLogs.filter _ = _
    rw [hsorted]
    exact filter_take_ids st.errorLogs hid _
  · rw [if_neg h]
    have h0 : st.errorLogs.length - st.maxErrorLogs = 0 := by omega
    rw [h0, List.drop_zero]

/-- C5: on a well-formed store configured with cap `M = maxErrorLogs`,
`logError` leaves the `error_logs` table equal to the appended row list
with its oldest `count - M` rows dropped (so when the insert pushes the
count above `M`, exactly `count - M` oldest-by-creation rows are deleted
and the `M` most recently created remain), and the table never holds more
than `M` rows afterwards. -/
theorem logError_fifo_cap (st : DBState) (hwf : ErrorLogsWF st)
    (ty msg : String) (tid stk : Option String) :
    (logError ty msg tid stk st).errorLogs
      = (st.errorLogs
          ++ [(⟨st.nextErrorId, tid, ty, msg, stk, st.now⟩ : ErrorLogRecord)]).drop
          (st.errorLogs.length + 1 - st.maxErrorLogs) ∧
    (logError ty msg tid stk st).errorLogs.length ≤ st.maxErrorLogs := by
  obtain ⟨hc, hcn, hi, hin⟩ := hwf
  have hcl : (st.errorLogs ++
      [(⟨st.nextErrorId, tid, ty, msg, stk, st.now⟩ : ErrorLogRecord)]).Pairwise
      (fun a b => a.createdAt < b.createdAt) := by
    rw [List.pairwise_append]
    refine ⟨hc, List.pairwise_singleton _ _, ?_⟩
    intro a ha b hb
    rw [List.mem_singleton] at hb
    subst hb
    exact hcn a ha
  have hil : (st.errorLogs ++
      [(⟨st.nextErrorId, tid, ty, msg, stk, st.now⟩ : ErrorLogRecord)]).Pairwise
      (fun a b => a.id < b.id) := by
    rw [List.pairwise_append]
    refine ⟨hi, List.pairwise_singleton _ _, ?_⟩
    intro a ha b hb
    rw [List.mem_singleton] at hb
    subst hb
    exact hin a ha
  have hstep : logError ty msg tid stk st
      = purgeOldErrorLogs ⟨st.tasks,
          st.errorLogs ++ [⟨st.nextErrorId, tid, ty, msg, stk, st.now⟩],
          st.nextErrorId + 1, st.syncState, st.maxErrorLogs,
          st.now + 1⟩ := rfl
  have hpurge := purge_drop
    (⟨st.tasks,
      st.errorLogs ++ [⟨st.nextErrorId, tid, ty, msg, stk, st.now⟩],
      st.nextErrorId + 1, st.syncState, st.maxErrorLogs,
      st.now + 1⟩ : DBState)
    hil (sortByCreatedAt_of_sorted _ (hcl.imp le_of_lt))
  rw [hstep, hpurge]
  dsimp only
  have hlen : (st.errorLogs ++
      [(⟨st.nextErrorId, tid, ty, msg, stk, st.now⟩ : ErrorLogRecord)]).length
      = st.errorLogs.length + 1 := by
    simp
  constructor
  · rw [hlen]
  · rw [List.length_drop, hlen]
    omega

/-- Witness for C5 at a concrete input. -/
theorem logError_fifo_cap_witness :
    ErrorLogsWF dbTwoLogs ∧
    (logError "SYNC_ERROR" "m3" none none dbTwoLogs).errorLogs
      = (dbTwoLogs.errorLogs
          ++ [(⟨3, none, "SYNC_ERROR", "m3", none, 2⟩ : ErrorLogRecord)]).drop
          (dbTwoLogs.errorLogs.length + 1 - dbTwoLogs.maxErrorLogs) ∧
    (logError "SYNC_ERROR" "m3" none none dbTwoLogs).errorLogs.length
      ≤ dbTwoLogs.maxErrorLogs :=
  ⟨by unfold ErrorLogsWF; refine ⟨?_, ?_, ?_, ?_⟩ <;> decide,
   (logError_fifo_cap dbTwoLogs
     (by unfold ErrorLogsWF; refine ⟨?_, ?_, ?_, ?_⟩ <;> decide)
     "SYNC_ERROR" "m3" none none).1,
   (logError_fifo_cap dbTwoLogs
     (by unfold ErrorLogsWF; refine ⟨?_, ?_, ?_, ?_⟩ <;> decide)
     "SYNC_ERROR" "m3" none none).2⟩

end Autolabel
